import Mathlib

/-!
Verification of the gen-schema-view CLI
(src/firestore-bigquery-export/scripts/gen-schema-view/src/index.ts)
and of the schema-to-view compiler it drives.

The CLI entry point (validateInput, parseConfig, run, the top-level
then/catch handler) is embedded directly from index.ts.  The schema
compiler module (schema.ts: FirestoreBigQuerySchemaViewFactory and the
SQL builders) is not part of the available sources; the definitions in
the compiler section below are modelled from the specification and say
so in their doc comments.
-/

set_option maxHeartbeats 1000000

namespace GenSchemaView

/-! ## CLI input validation (index.ts lines 27-39) -/

/-- Result of the inquirer validation callback: the source returns either
the literal `true` or an error-message string. -/
inductive ValidationResult where
  | ok : ValidationResult
  | msg : String → ValidationResult
deriving DecidableEq, Repr

/-- Whitespace as recognized by the JavaScript `String.prototype.trim`:
space, tab, line terminators and related space separators (restricted
here to the ASCII ones that can occur in CLI answers). -/
def isJsSpace (c : Char) : Bool :=
  c = ' ' || c = '\t' || c = '\n' || c = '\r' || c = '\x0b' || c = '\x0c'

/-- Embedding of the JavaScript `value.trim()` call: drop leading and
trailing whitespace. -/
def jsTrim (s : String) : String :=
  ⟨((s.data.dropWhile isJsSpace).reverse.dropWhile isJsSpace).reverse⟩

/-- Embeds `validateInput` from index.ts lines 31-39.  A missing value
(JS `undefined`/`null`) is `none`; a present string is `some s`.  The JS
truthiness test `!value` is false exactly for `none` and `some ""`, so the
first branch fires for `none`, the empty string, and whitespace-only
strings.  The regex test `value.match(regex)` is abstracted as a boolean
predicate on strings. -/
def validateInput (value : Option String) (name : String)
    (regexMatch : String → Bool) : ValidationResult :=
  match value with
  | none => ValidationResult.msg ("Please supply a " ++ name)
  | some s =>
    if s = "" ∨ jsTrim s = "" then
      ValidationResult.msg ("Please supply a " ++ name)
    else if !(regexMatch s) then
      ValidationResult.msg ("The " ++ name ++ " must only contain letters or spaces")
    else ValidationResult.ok

/-! ## The schema data model

The schema module itself (schema.ts) is not among the sources.
Modelled from the spec: `FieldType` is a tagged variant
STRING | NUMBER | BOOLEAN | TIMESTAMP | GEOPOINT | REFERENCE | NULL |
MAP | ARRAY | STRINGIFIED_MAP, where MAP carries an ordered list of
nested fields and ARRAY carries an element field. -/

/-- Modelled from the spec: the leaf (non-MAP, non-ARRAY) field types of
§3 and §4.1. -/
inductive FirestorePrimType where
  | string
  | number
  | boolean
  | timestamp
  | geopoint
  | reference
  | nullType
  | stringifiedMap
deriving DecidableEq, Repr

/-- Modelled from the spec: a `Field` (§3) with a name and a type; a MAP
field carries its ordered children, an ARRAY field carries its element
field (§9 recommends exactly this sum-type shape). -/
inductive FirestoreField where
  | prim : String → FirestorePrimType → FirestoreField
  | map : String → List FirestoreField → FirestoreField
  | array : String → FirestoreField → FirestoreField
deriving Repr

/-- Modelled from the spec: `FirestoreSchema` is an ordered list of
fields (§3). -/
structure FirestoreSchema where
  fields : List FirestoreField
deriving Repr

/-! ## Configuration parsing (index.ts lines 121-198) -/

/-- Embeds the `CliConfig` interface from index.ts lines 121-127.  The JS
object `schemas` maps schema names to parsed schemas; `for...in`
enumeration order over its string keys is insertion order, so it is
embedded as an association list in that order. -/
structure CliConfig where
  projectId : String
  bigQueryProjectId : String
  datasetId : String
  tableNamePrefixStr : String
  schemas : List (String × FirestoreSchema)

/-- The commander flag values read by `parseConfig` (index.ts lines
166-183): each value flag is `undefined` (`none`) until supplied, and
`schemaFiles` accumulates with `collect` starting from `[]`. -/
structure Flags where
  nonInteractive : Bool
  project : Option String
  bigQueryProject : Option String
  dataset : Option String
  tableNamePrefixOpt : Option String
  schemaFiles : List String

/-- Outcome of `parseConfig`: either `program.outputHelp()` followed by
`process.exit(1)` (modelled as `helpExit 1`), or a parsed config. -/
inductive ParseOutcome where
  | helpExit : Nat → ParseOutcome
  | ok : CliConfig → ParseOutcome

/-- Embeds `parseConfig` from index.ts lines 164-198.  `readSchemas` (from
schema-loader-utils, an external collaborator) is passed as a function
parameter; the interactive (inquirer) branch performs I/O and is
abstracted as the parameter `interactiveResult`. -/
def parseConfig (readSchemas : List String → List (String × FirestoreSchema))
    (interactiveResult : ParseOutcome) (flags : Flags) : ParseOutcome :=
  if flags.nonInteractive then
    if flags.project = none ∨ flags.bigQueryProject = none ∨ flags.dataset = none ∨
        flags.tableNamePrefixOpt = none ∨ flags.schemaFiles = [] then
      ParseOutcome.helpExit 1
    else
      ParseOutcome.ok
        { projectId := flags.project.getD ""
          bigQueryProjectId := flags.bigQueryProject.getD ""
          datasetId := flags.dataset.getD ""
          tableNamePrefixStr := flags.tableNamePrefixOpt.getD ""
          schemas := readSchemas flags.schemaFiles }
  else interactiveResult

/-! ## Theorems: C10 and C9 -/

/-- Claim C10: `validateInput` returns `true` exactly when the value is a
present, non-empty, non-whitespace string that matches the regex; a
missing, empty or whitespace-only value yields the "Please supply a
name" message, and a present non-whitespace value failing the regex
yields the "must only contain letters or spaces" message. -/
theorem validateInput_characterizes (value : Option String) (name : String)
    (regexMatch : String → Bool) :
    (validateInput value name regexMatch = ValidationResult.ok ↔
      ∃ s, value = some s ∧ s ≠ "" ∧ jsTrim s ≠ "" ∧ regexMatch s = true) ∧
    ((value = none ∨ value = some "" ∨ (∃ s, value = some s ∧ jsTrim s = "")) →
      validateInput value name regexMatch =
        ValidationResult.msg ("Please supply a " ++ name)) ∧
    (∀ s, value = some s → s ≠ "" → jsTrim s ≠ "" → regexMatch s = false →
      validateInput value name regexMatch =
        ValidationResult.msg ("The " ++ name ++ " must only contain letters or spaces")) := by
  refine ⟨?_, ?_, ?_⟩
  · constructor
    · intro h
      cases value with
      | none => exact absurd h (by simp [validateInput])
      | some s =>
        by_cases h1 : s = "" ∨ jsTrim s = ""
        · exact absurd h (by simp [validateInput, h1])
        · by_cases h2 : regexMatch s = true
          · push_neg at h1
            exact ⟨s, rfl, h1.1, h1.2, h2⟩
          · have h2' : regexMatch s = false := by simpa using h2
            exact absurd h (by simp [validateInput, h1, h2'])
    · rintro ⟨s, rfl, h1, h2, h3⟩
      simp [validateInput, h1, h2, h3]
  · rintro (rfl | rfl | ⟨s, rfl, hs⟩)
    · rfl
    · simp [validateInput]
    · simp [validateInput, hs]
  · rintro s rfl h1 h2 h3
    simp [validateInput, h1, h2, h3]

/-- Witness for C10: a concrete accepted input. -/
theorem validateInput_characterizes_witness :
    validateInput (some "abc") "dataset ID" (fun s => decide (s = "abc")) = ValidationResult.ok := by
  exact (validateInput_characterizes (some "abc") "dataset ID"
    (fun s => decide (s = "abc"))).1.mpr ⟨"abc", rfl, by decide, by decide, by decide⟩

/-- Claim C9: in non-interactive mode, if any required flag is undefined
or the schema-file list is empty, `parseConfig` prints help and exits
with status 1 — uniformly in the schema reader, i.e. before any schema
is read; otherwise it returns exactly the configuration built from the
flags, with `schemas = readSchemas(schemaFiles)`. -/
theorem parseConfig_nonInteractive (flags : Flags)
    (h : flags.nonInteractive = true) :
    ((flags.project = none ∨ flags.bigQueryProject = none ∨ flags.dataset = none ∨
        flags.tableNamePrefixOpt = none ∨ flags.schemaFiles = []) →
      ∀ rs rs' i i', parseConfig rs i flags = ParseOutcome.helpExit 1 ∧
        parseConfig rs i flags = parseConfig rs' i' flags) ∧
    (∀ p b d t, flags.project = some p → flags.bigQueryProject = some b →
      flags.dataset = some d → flags.tableNamePrefixOpt = some t →
      flags.schemaFiles ≠ [] → ∀ rs i,
      parseConfig rs i flags =
        ParseOutcome.ok ⟨p, b, d, t, rs flags.schemaFiles⟩) := by
  constructor
  · intro hmiss rs rs' i i'
    constructor <;> simp [parseConfig, h, hmiss]
  · intro p b d t hp hb hd ht hf rs i
    have hmiss : ¬ (flags.project = none ∨ flags.bigQueryProject = none ∨
        flags.dataset = none ∨ flags.tableNamePrefixOpt = none ∨
        flags.schemaFiles = []) := by
      simp [hp, hb, hd, ht, hf]
    simp [parseConfig, h, hmiss, hp, hb, hd, ht, hf]

/-- Witness for C9: concrete flags with every required value present. -/
theorem parseConfig_nonInteractive_witness :
    parseConfig (fun _ => []) (ParseOutcome.helpExit 1)
      ⟨true, some "p", some "bq", some "ds", some "tbl", ["a.json"]⟩ =
      ParseOutcome.ok ⟨"p", "bq", "ds", "tbl", []⟩ := by
  exact (parseConfig_nonInteractive
      ⟨true, some "p", some "bq", some "ds", some "tbl", ["a.json"]⟩ rfl).2
    "p" "bq" "ds" "tbl" rfl rfl rfl rfl (by decide) (fun _ => [])
    (ParseOutcome.helpExit 1)

/-! ## The `run` loop (index.ts lines 129-162) and the top-level handler
(lines 200-209)

`run` awaits `initializeSchemaViewResources` once per schema name, in
`for...in` order.  The factory's behaviour on each call is abstracted as
a function returning `Except`: `ok ()` for a fulfilled promise, `error e`
for a rejected one.  A rejected `await` aborts the loop and propagates
out of `run`, since `run` contains no try/catch. -/

/-- A JavaScript error value as observed by the top-level handler:
`json` is what `JSON.stringify(error)` yields, `message` the `.message`
property. -/
structure JsError where
  json : String
  message : String
deriving DecidableEq, Repr

/-- One invocation of `viewFactory.initializeSchemaViewResources`
(index.ts lines 154-159), with the four arguments it is given. -/
structure SchemaViewCall where
  datasetId : String
  tableNamePrefixStr : String
  schemaName : String
  schema : FirestoreSchema

/-- Behaviour of the factory on a single awaited call. -/
abbrev FactoryBehavior : Type :=
  String → String → String → FirestoreSchema → Except JsError Unit

/-- The call made for the association-list entry `p`. -/
def mkCall (d t : String) (p : String × FirestoreSchema) : SchemaViewCall :=
  ⟨d, t, p.1, p.2⟩

/-- Embeds the `for (const schemaName in config.schemas)` loop of
index.ts lines 153-160: issue the calls in order, stopping at (and
propagating) the first rejection.  Returns the trace of issued calls and
the loop's outcome. -/
def runSchemas (fb : FactoryBehavior) (d t : String) :
    List (String × FirestoreSchema) → List SchemaViewCall × Except JsError Unit
  | [] => ([], Except.ok ())
  | (n, s) :: rest =>
    match fb d t n s with
    | Except.error e => ([⟨d, t, n, s⟩], Except.error e)
    | Except.ok _ =>
      let r := runSchemas fb d t rest
      (⟨d, t, n, s⟩ :: r.1, r.2)

/-- Observable outcome of one `run` invocation: console log lines, the
project IDs the view factory was constructed with, the trace of factory
calls, and the returned value or propagated rejection. -/
structure RunOutcome where
  logs : List String
  factoryProjects : List String
  calls : List SchemaViewCall
  result : Except JsError Nat

/-- Embeds `run` from index.ts lines 129-162 (after `parseConfig` has
produced `config`; the firebase/app bootstrapping on lines 134-144 has no
bearing on the claims and is omitted).  Logs the zero-schema message when
the mapping is empty, constructs one factory with the BigQuery project
ID, then runs the schema loop; on success returns 0. -/
def run (fb : FactoryBehavior) (config : CliConfig) : RunOutcome :=
  let logLines := if config.schemas.isEmpty then ["No schema files found!"] else []
  let r := runSchemas fb config.datasetId config.tableNamePrefixStr config.schemas
  { logs := logLines
    factoryProjects := [config.bigQueryProjectId]
    calls := r.1
    result := match r.2 with
      | Except.ok _ => Except.ok 0
      | Except.error e => Except.error e }

/-- Observable outcome of the top-level `run().then(...).catch(...)`
handler: lines written with `console.log`, lines written with
`console.error`, and the argument passed to `process.exit`. -/
structure TopLevelOutcome where
  logs : List String
  errorLogs : List String
  exitArg : Option Nat

/-- Embeds the handler at index.ts lines 200-209: on fulfilment log
"done." and call `process.exit()`; on rejection log
`JSON.stringify(error)`, print `error.message` to stderr, and call
`process.exit()` — in both cases with no argument. -/
def topLevelHandler (r : Except JsError Nat) : TopLevelOutcome :=
  match r with
  | Except.ok _ => { logs := ["done."], errorLogs := [], exitArg := none }
  | Except.error e => { logs := [e.json], errorLogs := [e.message], exitArg := none }

/-- Node.js semantics of `process.exit(arg)`: with no argument the process
exits with the current `process.exitCode`, which this program never sets,
so it defaults to 0. -/
def processExitCode (arg : Option Nat) : Nat :=
  arg.getD 0

/-! ### Helper lemmas about `runSchemas` -/

/-- When every entry's factory call fulfils, the loop calls each entry
once, in order, and succeeds. -/
theorem runSchemas_all_ok (fb : FactoryBehavior) (d t : String) :
    ∀ l : List (String × FirestoreSchema),
    (∀ n s, (n, s) ∈ l → fb d t n s = Except.ok ()) →
    runSchemas fb d t l = (l.map (mkCall d t), Except.ok ()) := by
  intro l
  induction l with
  | nil => intro _; rfl
  | cons p rest ih =>
    intro h
    obtain ⟨n, s⟩ := p
    have hn : fb d t n s = Except.ok () := h n s (List.mem_cons_self _ _)
    have hrest := ih (fun m u hm => h m u (List.mem_cons_of_mem _ hm))
    simp [runSchemas, hn, hrest, mkCall]

/-- The loop stops right after the first rejected call and propagates the
rejection. -/
theorem runSchemas_stops (fb : FactoryBehavior) (d t : String) :
    ∀ (pre : List (String × FirestoreSchema)) (n : String) (s : FirestoreSchema)
      (rest : List (String × FirestoreSchema)) (e : JsError),
    (∀ m u, (m, u) ∈ pre → fb d t m u = Except.ok ()) →
    fb d t n s = Except.error e →
    runSchemas fb d t (pre ++ (n, s) :: rest) =
      ((pre ++ [(n, s)]).map (mkCall d t), Except.error e) := by
  intro pre
  induction pre with
  | nil =>
    intro n s rest e _ herr
    simp [runSchemas, herr, mkCall]
  | cons p pre' ih =>
    intro n s rest e hok herr
    obtain ⟨m, u⟩ := p
    have hm : fb d t m u = Except.ok () := hok m u (List.mem_cons_self _ _)
    have hih := ih n s rest e (fun m' u' hm' => hok m' u' (List.mem_cons_of_mem _ hm')) herr
    simp [runSchemas, hm, hih, mkCall]

/-- The trace of calls issued by the loop is always the image of some
prefix of the schema list. -/
theorem runSchemas_calls_take (fb : FactoryBehavior) (d t : String) :
    ∀ l : List (String × FirestoreSchema),
    ∃ k, (runSchemas fb d t l).1 = (l.take k).map (mkCall d t) := by
  intro l
  induction l with
  | nil => exact ⟨0, rfl⟩
  | cons p rest ih =>
    obtain ⟨n, s⟩ := p
    cases hcall : fb d t n s with
    | error e => exact ⟨1, by simp [runSchemas, hcall, mkCall]⟩
    | ok u =>
      obtain ⟨k, hk⟩ := ih
      exact ⟨k + 1, by simp [runSchemas, hcall, hk, mkCall]⟩

/-- A rejection coming out of the loop is the unchanged rejection of one
of the issued calls. -/
theorem runSchemas_error_source (fb : FactoryBehavior) (d t : String) :
    ∀ (l : List (String × FirestoreSchema)) (e : JsError),
    (runSchemas fb d t l).2 = Except.error e →
    ∃ c ∈ (runSchemas fb d t l).1,
      fb d t c.schemaName c.schema = Except.error e := by
  intro l
  induction l with
  | nil =>
    intro e h
    exact absurd h (by simp [runSchemas])
  | cons p rest ih =>
    intro e h
    obtain ⟨n, s⟩ := p
    cases hcall : fb d t n s with
    | error e' =>
      have hres : runSchemas fb d t ((n, s) :: rest) =
          ([⟨d, t, n, s⟩], Except.error e') := by
        simp [runSchemas, hcall]
      rw [hres] at h
      have he : e' = e := by simpa using h
      refine ⟨⟨d, t, n, s⟩, ?_, he ▸ hcall⟩
      rw [hres]
      exact List.mem_singleton_self _
    | ok u =>
      have hres : runSchemas fb d t ((n, s) :: rest) =
          (⟨d, t, n, s⟩ :: (runSchemas fb d t rest).1,
            (runSchemas fb d t rest).2) := by
        simp [runSchemas, hcall]
      rw [hres] at h
      obtain ⟨c, hc, hce⟩ := ih e h
      refine ⟨c, ?_, hce⟩
      rw [hres]
      exact List.mem_cons_of_mem _ hc

/-! ### Theorems: C2, C3, C4, C1, C5 -/

/-- Claim C2: with an empty parsed schema mapping, `run` logs
"No schema files found!", makes zero factory calls, and returns 0. -/
theorem run_empty_schemas (fb : FactoryBehavior) (config : CliConfig)
    (h : config.schemas = []) :
    (run fb config).logs = ["No schema files found!"] ∧
    (run fb config).calls = [] ∧
    (run fb config).result = Except.ok 0 := by
  refine ⟨?_, ?_, ?_⟩ <;> simp [run, h, runSchemas]

/-- Witness for C2: a concrete configuration with no schemas. -/
theorem run_empty_schemas_witness :
    (run (fun _ _ _ _ => Except.ok ()) ⟨"p", "bq", "ds", "t", []⟩).result =
      Except.ok 0 :=
  (run_empty_schemas (fun _ _ _ _ => Except.ok ()) ⟨"p", "bq", "ds", "t", []⟩ rfl).2.2

/-- Claim C3: `run` constructs exactly one view factory, with the
BigQuery project ID, and (when no call rejects) awaits exactly one
`initializeSchemaViewResources(datasetId, tableNamePrefix, schemaName,
schemas[schemaName])` per schema name, sequentially in enumeration
order, then returns 0. -/
theorem run_calls_in_order (fb : FactoryBehavior) (config : CliConfig)
    (h : ∀ n s, (n, s) ∈ config.schemas →
      fb config.datasetId config.tableNamePrefixStr n s = Except.ok ()) :
    (run fb config).factoryProjects = [config.bigQueryProjectId] ∧
    (run fb config).calls =
      config.schemas.map (mkCall config.datasetId config.tableNamePrefixStr) ∧
    (run fb config).result = Except.ok 0 := by
  have hloop := runSchemas_all_ok fb config.datasetId config.tableNamePrefixStr
    config.schemas h
  refine ⟨rfl, ?_, ?_⟩ <;> simp [run, hloop]

/-- Witness for C3: two schemas, both calls fulfil, both are issued in
order. -/
theorem run_calls_in_order_witness :
    (run (fun _ _ _ _ => Except.ok ())
        ⟨"p", "bq", "ds", "t", [("a", ⟨[]⟩), ("b", ⟨[]⟩)]⟩).calls.map
      (fun c => c.schemaName) = ["a", "b"] := by
  have h := (run_calls_in_order (fun _ _ _ _ => Except.ok ())
    ⟨"p", "bq", "ds", "t", [("a", ⟨[]⟩), ("b", ⟨[]⟩)]⟩
    (fun n s _ => rfl)).2.1
  rw [h]
  rfl

/-- Claim C4: each schema's factory call is issued at most once per
invocation of `run` (no retries), and a rejection is propagated out of
`run` unchanged — the resulting error is exactly the error some issued
call rejected with. -/
theorem run_no_retry_propagates (fb : FactoryBehavior) (config : CliConfig)
    (hnd : (config.schemas.map Prod.fst).Nodup) :
    (∀ n, ((run fb config).calls.map (fun c => c.schemaName)).count n ≤ 1) ∧
    (∀ e, (run fb config).result = Except.error e →
      ∃ c ∈ (run fb config).calls,
        fb config.datasetId config.tableNamePrefixStr c.schemaName c.schema =
          Except.error e) := by
  constructor
  · intro n
    obtain ⟨k, hk⟩ := runSchemas_calls_take fb config.datasetId
      config.tableNamePrefixStr config.schemas
    have hcalls : (run fb config).calls =
        (config.schemas.take k).map (mkCall config.datasetId config.tableNamePrefixStr) := hk
    have hcomp : ((fun c => c.schemaName) ∘
        mkCall config.datasetId config.tableNamePrefixStr) =
        (Prod.fst : String × FirestoreSchema → String) := by
      funext p
      rfl
    have hnames : (run fb config).calls.map (fun c => c.schemaName) =
        (config.schemas.map Prod.fst).take k := by
      rw [hcalls, List.map_map, hcomp, List.map_take]
    rw [hnames]
    calc ((config.schemas.map Prod.fst).take k).count n
        ≤ (config.schemas.map Prod.fst).count n :=
          (List.take_sublist k _).count_le n
      _ ≤ 1 := List.nodup_iff_count_le_one.mp hnd n
  · intro e he
    have hres : (runSchemas fb config.datasetId config.tableNamePrefixStr
        config.schemas).2 = Except.error e := by
      cases hr : (runSchemas fb config.datasetId config.tableNamePrefixStr
          config.schemas).2 with
      | ok u =>
        exfalso
        simp [run, hr] at he
      | error e' =>
        simp [run, hr] at he
        exact congrArg Except.error he
    exact runSchemas_error_source fb config.datasetId config.tableNamePrefixStr
      config.schemas e hres

/-- The always-rejecting factory behaviour used in the C4 witness. -/
def fbRejectC4 : FactoryBehavior := fun _ _ _ _ => Except.error ⟨"j", "m"⟩

/-- The one-schema configuration used in the C4 witness. -/
def cfgOneC4 : CliConfig := ⟨"p", "bq", "ds", "t", [("a", ⟨[]⟩)]⟩

/-- Witness for C4: a single always-rejecting schema; the propagated
error is the call's own rejection. -/
theorem run_no_retry_propagates_witness :
    ∃ c ∈ (run fbRejectC4 cfgOneC4).calls,
      fbRejectC4 cfgOneC4.datasetId cfgOneC4.tableNamePrefixStr
          c.schemaName c.schema = Except.error ⟨"j", "m"⟩ :=
  (run_no_retry_propagates fbRejectC4 cfgOneC4 (by simp [cfgOneC4])).2
    ⟨"j", "m"⟩ rfl

/-- The always-rejecting factory behaviour used in the C1 counterexample. -/
def fbRejectC1 : FactoryBehavior := fun _ _ _ _ => Except.error ⟨"j1", "m1"⟩

/-- The two-schema configuration used in the C1 counterexample. -/
def cfgTwoC1 : CliConfig := ⟨"p", "bq", "ds", "t", [("alpha", ⟨[]⟩), ("beta", ⟨[]⟩)]⟩

/-- Counterexample to claim C1 as stated: a configuration with two
schemas whose factory rejects the call for the first schema "alpha";
`run` does NOT invoke `initializeSchemaViewResources` for the remaining
schema "beta" — the trace of issued calls is exactly ["alpha"]. -/
theorem run_isolation_counterexample :
    fbRejectC1 cfgTwoC1.datasetId cfgTwoC1.tableNamePrefixStr "alpha" ⟨[]⟩ =
      Except.error ⟨"j1", "m1"⟩ ∧
    cfgTwoC1.schemas.map Prod.fst = ["alpha", "beta"] ∧
    (run fbRejectC1 cfgTwoC1).calls.map (fun c => c.schemaName) = ["alpha"] :=
  ⟨rfl, rfl, rfl⟩

/-- Claim C1 (amended): when the factory call for one schema rejects
(all earlier schemas' calls having fulfilled), `run` stops at that
schema: its trace of calls is exactly the earlier schemas plus the
rejecting one — no remaining schema is processed — and the rejection
propagates out of `run`. -/
theorem run_stops_at_first_rejection (fb : FactoryBehavior) (config : CliConfig)
    (pre : List (String × FirestoreSchema)) (n : String) (s : FirestoreSchema)
    (rest : List (String × FirestoreSchema)) (e : JsError)
    (hsplit : config.schemas = pre ++ (n, s) :: rest)
    (hok : ∀ m u, (m, u) ∈ pre →
      fb config.datasetId config.tableNamePrefixStr m u = Except.ok ())
    (herr : fb config.datasetId config.tableNamePrefixStr n s = Except.error e) :
    (run fb config).calls =
      (pre ++ [(n, s)]).map (mkCall config.datasetId config.tableNamePrefixStr) ∧
    (run fb config).result = Except.error e := by
  have hloop := runSchemas_stops fb config.datasetId config.tableNamePrefixStr
    pre n s rest e hok herr
  constructor
  · show (runSchemas fb config.datasetId config.tableNamePrefixStr
      config.schemas).1 = _
    rw [hsplit, hloop]
  · show (match (runSchemas fb config.datasetId config.tableNamePrefixStr
      config.schemas).2 with
      | Except.ok _ => Except.ok 0
      | Except.error e => Except.error e) = Except.error e
    rw [hsplit, hloop]

/-- Witness for the amended C1: concrete two-schema run rejecting on the
first schema. -/
theorem run_stops_at_first_rejection_witness :
    (run fbRejectC1 cfgTwoC1).calls =
      [("alpha", (⟨[]⟩ : FirestoreSchema))].map
        (mkCall cfgTwoC1.datasetId cfgTwoC1.tableNamePrefixStr) ∧
    (run fbRejectC1 cfgTwoC1).result = Except.error ⟨"j1", "m1"⟩ := by
  have h := run_stops_at_first_rejection fbRejectC1 cfgTwoC1 []
    "alpha" ⟨[]⟩ [("beta", ⟨[]⟩)] ⟨"j1", "m1"⟩ rfl
    (fun m u hm => absurd hm (List.not_mem_nil (m, u))) rfl
  simpa using h

/-- Claim C5: on a rejection propagated out of `run`, the top-level
handler logs the error's JSON serialization and its message and calls
`process.exit()` with no argument, so the process exits with code 0 —
the same exit code as a fully successful run. -/
theorem topLevel_exit_zero_on_error (e : JsError) :
    topLevelHandler (Except.error e) =
      ⟨[e.json], [e.message], none⟩ ∧
    processExitCode (topLevelHandler (Except.error e)).exitArg = 0 ∧
    processExitCode (topLevelHandler (Except.error e)).exitArg =
      processExitCode (topLevelHandler (Except.ok 0)).exitArg :=
  ⟨rfl, rfl, rfl⟩

/-! ## The schema-to-view compiler

schema.ts is not among the available sources; everything in this section
is modelled from the specification (§4.1-§4.4, §3) and says so in its doc
comment. -/

/-- A flattened output column: qualified name, extraction expression and
SQL type. -/
structure SchemaColumn where
  qualifiedName : String
  selectExpr : String
  sqlType : String
deriving DecidableEq, Repr

/-- Modelled from the spec: the Type Resolver's target SQL type for each
leaf field type (§4.1).  GEOPOINT never reaches this mapping directly:
the Flattener splits it into two FLOAT64 columns. -/
def sqlTypeOf : FirestorePrimType → String
  | FirestorePrimType.string => "STRING"
  | FirestorePrimType.number => "FLOAT64"
  | FirestorePrimType.boolean => "BOOLEAN"
  | FirestorePrimType.timestamp => "TIMESTAMP"
  | FirestorePrimType.geopoint => "GEOPOINT"
  | FirestorePrimType.reference => "STRING"
  | FirestorePrimType.nullType => "STRING"
  | FirestorePrimType.stringifiedMap => "STRING"

/-- Modelled from the spec: the Type Resolver's extraction expression —
a JSON-path extraction of the raw data column at the field path, cast to
the target type (§4.1; the concrete dialect syntax is abstracted). -/
def extractExpr (path : String) (t : FirestorePrimType) : String :=
  "CAST(JSON_PATH(data, " ++ path ++ ") AS " ++ sqlTypeOf t ++ ")"

/-- Modelled from the spec: latitude extraction for a GEOPOINT field
(§4.1). -/
def geoLatExpr (path : String) : String :=
  "CAST(JSON_PATH(data, " ++ path ++ ".latitude) AS FLOAT64)"

/-- Modelled from the spec: longitude extraction for a GEOPOINT field
(§4.1). -/
def geoLngExpr (path : String) : String :=
  "CAST(JSON_PATH(data, " ++ path ++ ".longitude) AS FLOAT64)"

/-- Qualified column name under a path: `pathPrefix.name`, or just
the name at the top level (§4.2). -/
def qualify (pre name : String) : String :=
  if pre = "" then name else pre ++ "." ++ name

mutual

/-- Modelled from the spec: the Field Flattener on one field (§4.2) —
leaf fields resolve to one column (two FLOAT64 columns for GEOPOINT),
MAP fields flatten inline recursively under the extended path, ARRAY
fields contribute no inline column and register one child schema keyed
by the field path. -/
def flattenField (pre : String) :
    FirestoreField → List SchemaColumn × List (String × FirestoreField)
  | FirestoreField.prim n t =>
    match t with
    | FirestorePrimType.geopoint =>
      ([⟨qualify pre n ++ ".latitude", geoLatExpr (qualify pre n), "FLOAT64"⟩,
        ⟨qualify pre n ++ ".longitude", geoLngExpr (qualify pre n), "FLOAT64"⟩],
       [])
    | _ =>
      ([⟨qualify pre n, extractExpr (qualify pre n) t, sqlTypeOf t⟩], [])
  | FirestoreField.map n children => flattenFields (qualify pre n) children
  | FirestoreField.array n elemField => ([], [(qualify pre n, elemField)])

/-- Modelled from the spec: the Field Flattener over a field list in
declaration order (§4.2). -/
def flattenFields (pre : String) :
    List FirestoreField → List SchemaColumn × List (String × FirestoreField)
  | [] => ([], [])
  | f :: rest =>
    let a := flattenField pre f
    let b := flattenFields pre rest
    (a.1 ++ b.1, a.2 ++ b.2)

end

/-- Modelled from the spec: deterministic Latest-Snapshot view name for
(tableNamePrefix, schemaName) (§3, §4.3). -/
def latestViewName (tPre schemaName : String) : String :=
  tPre ++ "_" ++ schemaName ++ "_schema_latest"

/-- Modelled from the spec: deterministic top-level Typed view name
(§3, §4.4). -/
def typedViewName (tPre schemaName : String) : String :=
  tPre ++ "_" ++ schemaName ++ "_schema_views"

/-- Modelled from the spec: a child view is named by joining the parent
view name and the array field path (§4.4, §3). -/
def childViewName (parentName fieldPath : String) : String :=
  parentName ++ "_" ++ fieldPath

/-- Modelled from the spec: the raw changelog table name derived by
convention from the table-name prefix (§6). -/
def rawChangelogTableName (tPre : String) : String :=
  tPre ++ "_raw_changelog"

/-- Render a column list as a SELECT projection. -/
def columnsSelect : List SchemaColumn → String
  | [] => ""
  | [c] => c.selectExpr ++ " AS " ++ c.qualifiedName
  | c :: rest => c.selectExpr ++ " AS " ++ c.qualifiedName ++ ", " ++ columnsSelect rest

/-- Modelled from the spec: the Latest-Snapshot view SQL (§4.3) — per
document path keep the row maximal in (timestamp, sequence) and drop the
path when that row is a delete. -/
def buildLatestSnapshotSql (datasetId tPre : String) : String :=
  "SELECT document_name, timestamp, operation, data FROM " ++ datasetId ++ "." ++
    rawChangelogTableName tPre ++
    " WHERE (timestamp, sequence) IS MAX PER document_name AND operation IS NOT DELETE"

/-- Modelled from the spec: the Typed view SQL (§4.4) — project the
document path plus every flattened column from a source view. -/
def buildTypedViewSql (sourceView : String) (cols : List SchemaColumn) : String :=
  "SELECT document_name, " ++ columnsSelect cols ++ " FROM " ++ sourceView

/-- Modelled from the spec: the child Typed view SQL for an array field
(§4.4) — decompose the array into one row per element, keeping the
parent document path and the element ordinal. -/
def buildChildViewSql (parentView fieldPath : String)
    (cols : List SchemaColumn) : String :=
  "SELECT document_name, array_index, " ++ columnsSelect cols ++
    " FROM UNNEST(" ++ parentView ++ "." ++ fieldPath ++ ")"

mutual

/-- Modelled from the spec: recursively compile one child view per
array-valued field reachable from `fields`, including arrays nested
inside inline maps and inside array-element maps (§4.2, §4.4, §4.5). -/
def compileChildren (parentView pre : String) :
    List FirestoreField → List (String × String)
  | [] => []
  | f :: rest =>
    compileChildField parentView pre f ++ compileChildren parentView pre rest

/-- Modelled from the spec: the child views contributed by one field —
none for a leaf, the nested arrays for an inline map, and for an array
field its own child view followed by the child views reachable from its
element field (§4.4). -/
def compileChildField (parentView pre : String) :
    FirestoreField → List (String × String)
  | FirestoreField.prim _ _ => []
  | FirestoreField.map n children =>
    compileChildren parentView (qualify pre n) children
  | FirestoreField.array n elemField =>
    (childViewName parentView (qualify pre n),
      buildChildViewSql parentView (qualify pre n)
        (flattenField "" elemField).1) ::
    compileChildField (childViewName parentView (qualify pre n)) "" elemField

end

/-- Modelled from the spec: compile one schema into its ordered list of
(viewName, sql) pairs — the Latest-Snapshot view, the top-level Typed
view over it, then recursively the child views (§4.4, §4.5). -/
def compileSchemaViews (datasetId tPre schemaName : String)
    (schema : FirestoreSchema) : List (String × String) :=
  (latestViewName tPre schemaName, buildLatestSnapshotSql datasetId tPre) ::
  (typedViewName tPre schemaName,
    buildTypedViewSql (datasetId ++ "." ++ latestViewName tPre schemaName)
      (flattenFields "" schema.fields).1) ::
  compileChildren (typedViewName tPre schemaName) "" schema.fields

/-! ### Theorems: C8 and C6 -/

/-- Claim C8: flattening a GEOPOINT field named f yields exactly the two
columns f.latitude and f.longitude, both of SQL type FLOAT64, and no
other column and no child schema. -/
theorem flatten_geopoint (pre n : String) :
    flattenField pre (FirestoreField.prim n FirestorePrimType.geopoint) =
      ([⟨qualify pre n ++ ".latitude", geoLatExpr (qualify pre n), "FLOAT64"⟩,
        ⟨qualify pre n ++ ".longitude", geoLngExpr (qualify pre n), "FLOAT64"⟩],
       []) ∧
    (flattenField pre (FirestoreField.prim n FirestorePrimType.geopoint)).1.length = 2 ∧
    ∀ c ∈ (flattenField pre (FirestoreField.prim n FirestorePrimType.geopoint)).1,
      c.sqlType = "FLOAT64" := by
  have heq : flattenField pre (FirestoreField.prim n FirestorePrimType.geopoint) =
      ([⟨qualify pre n ++ ".latitude", geoLatExpr (qualify pre n), "FLOAT64"⟩,
        ⟨qualify pre n ++ ".longitude", geoLngExpr (qualify pre n), "FLOAT64"⟩],
       []) := rfl
  refine ⟨heq, by rw [heq]; rfl, ?_⟩
  intro c hc
  rw [heq] at hc
  have h2 : c = ⟨qualify pre n ++ ".latitude", geoLatExpr (qualify pre n), "FLOAT64"⟩ ∨
      c = ⟨qualify pre n ++ ".longitude", geoLngExpr (qualify pre n), "FLOAT64"⟩ := by
    simpa using hc
  rcases h2 with rfl | rfl <;> rfl

/-- Names of the views produced by `compileChildren` do not depend on
anything but the parent view name, the path and the fields. -/
theorem compileSchemaViews_names_indep_dataset
    (d d' tPre schemaName : String) (schema : FirestoreSchema) :
    (compileSchemaViews d tPre schemaName schema).map Prod.fst =
      (compileSchemaViews d' tPre schemaName schema).map Prod.fst := by
  simp [compileSchemaViews]

/-- Claim C6: compilation is a deterministic pure function of
(FirestoreSchema, tableNamePrefix, schemaName): compiling the same
schema twice yields byte-identical SQL strings and identical view
names; moreover the view names depend only on the table-name prefix,
the schema name and the field paths — not on the dataset/project
identifiers. -/
theorem compileSchemaViews_deterministic (datasetId tPre schemaName : String)
    (schema : FirestoreSchema) :
    compileSchemaViews datasetId tPre schemaName schema =
      compileSchemaViews datasetId tPre schemaName schema ∧
    (compileSchemaViews datasetId tPre schemaName schema).map Prod.fst =
      (compileSchemaViews datasetId tPre schemaName schema).map Prod.fst ∧
    ∀ d', (compileSchemaViews datasetId tPre schemaName schema).map Prod.fst =
      (compileSchemaViews d' tPre schemaName schema).map Prod.fst :=
  ⟨rfl, rfl, fun d' =>
    compileSchemaViews_names_indep_dataset datasetId d' tPre schemaName schema⟩

/-! ## Latest-Snapshot view semantics (C7)

Modelled from the spec (§4.3): the changelog is a list of rows with a
document path, a timestamp, a monotonic per-write sequence number and an
operation kind; the view keeps, per distinct document path, the row
maximal in (timestamp, sequence) and drops the path when that row is a
delete. -/

/-- Modelled from the spec: one row of the raw changelog table (§4.3,
glossary): document path, timestamp, the secondary monotonic sequence
column, whether the operation is a delete, and the raw payload. -/
structure ChangelogRow where
  documentName : String
  ts : Nat
  seq : Nat
  isDelete : Bool
  data : String
deriving DecidableEq, Repr

/-- Lexicographic (timestamp, sequence) order: `rowLE a b` means `a` is
no later than `b`. -/
def rowLE (a b : ChangelogRow) : Prop :=
  a.ts < b.ts ∨ (a.ts = b.ts ∧ a.seq ≤ b.seq)

/-- Strict "later than" test used to keep the running maximum: `a` is
strictly later than `b` in (timestamp, sequence) order. -/
def laterThan (a b : ChangelogRow) : Bool :=
  decide (b.ts < a.ts) || (decide (b.ts = a.ts) && decide (b.seq < a.seq))

theorem laterThan_false_iff (a b : ChangelogRow) :
    laterThan a b = false ↔ rowLE a b := by
  simp only [laterThan, rowLE, Bool.or_eq_false_iff, Bool.and_eq_false_iff,
    decide_eq_false_iff_not]
  omega

theorem laterThan_true_le (a b : ChangelogRow) (h : laterThan a b = true) :
    rowLE b a := by
  simp only [laterThan, Bool.or_eq_true, Bool.and_eq_true, decide_eq_true_eq] at h
  rcases h with h | ⟨h1, h2⟩
  · exact Or.inl h
  · exact Or.inr ⟨h1, Nat.le_of_lt h2⟩

theorem rowLE_refl (a : ChangelogRow) : rowLE a a :=
  Or.inr ⟨rfl, Nat.le_refl _⟩

theorem rowLE_trans (a b c : ChangelogRow) (hab : rowLE a b) (hbc : rowLE b c) :
    rowLE a c := by
  rcases hab with hab | ⟨hab1, hab2⟩ <;> rcases hbc with hbc | ⟨hbc1, hbc2⟩
  · exact Or.inl (Nat.lt_trans hab hbc)
  · exact Or.inl (hbc1 ▸ hab)
  · exact Or.inl (hab1 ▸ hbc)
  · exact Or.inr ⟨hab1.trans hbc1, Nat.le_trans hab2 hbc2⟩

/-- One step of the running-maximum fold. -/
def pickStep (acc : Option ChangelogRow) (r : ChangelogRow) : Option ChangelogRow :=
  match acc with
  | none => some r
  | some m => if laterThan r m then some r else some m

/-- Modelled from the spec: the row the Latest-Snapshot view keeps for
one document path — the row of the path's changelog entries maximal in
(timestamp, sequence) (§4.3). -/
def pickLatest (l : List ChangelogRow) : Option ChangelogRow :=
  l.foldl pickStep none

theorem pickLatest_fold (l : List ChangelogRow) :
    ∀ (b m : ChangelogRow), l.foldl pickStep (some b) = some m →
    (m = b ∨ m ∈ l) ∧ rowLE b m ∧ ∀ r ∈ l, rowLE r m := by
  induction l with
  | nil =>
    intro b m h
    simp [List.foldl] at h
    refine ⟨Or.inl h.symm, ?_, ?_⟩
    · rw [h]; exact rowLE_refl m
    · intro r hr; exact absurd hr (List.not_mem_nil r)
  | cons a rest ih =>
    intro b m h
    rw [List.foldl_cons] at h
    cases hstep : laterThan a b with
    | true =>
      have hb : pickStep (some b) a = some a := by simp [pickStep, hstep]
      rw [hb] at h
      obtain ⟨hmem, hle, hall⟩ := ih a m h
      have hba : rowLE b a := laterThan_true_le a b hstep
      refine ⟨?_, rowLE_trans b a m hba hle, ?_⟩
      · rcases hmem with rfl | hm
        · exact Or.inr (List.mem_cons_self _ _)
        · exact Or.inr (List.mem_cons_of_mem _ hm)
      · intro r hr
        rcases List.mem_cons.mp hr with rfl | hr'
        · exact hle
        · exact hall r hr'
    | false =>
      have hb : pickStep (some b) a = some b := by simp [pickStep, hstep]
      rw [hb] at h
      obtain ⟨hmem, hle, hall⟩ := ih b m h
      have hab : rowLE a b := (laterThan_false_iff a b).mp hstep
      refine ⟨?_, hle, ?_⟩
      · rcases hmem with rfl | hm
        · exact Or.inl rfl
        · exact Or.inr (List.mem_cons_of_mem _ hm)
      · intro r hr
        rcases List.mem_cons.mp hr with rfl | hr'
        · exact rowLE_trans r b m hab hle
        · exact hall r hr'

/-- `pickLatest` returns a member of the list that every member is no
later than. -/
theorem pickLatest_spec (l : List ChangelogRow) (m : ChangelogRow)
    (h : pickLatest l = some m) :
    m ∈ l ∧ ∀ r ∈ l, rowLE r m := by
  cases l with
  | nil => exact absurd h (by simp [pickLatest])
  | cons a rest =>
    have h' : rest.foldl pickStep (some a) = some m := h
    obtain ⟨hmem, hle, hall⟩ := pickLatest_fold rest a m h'
    constructor
    · rcases hmem with rfl | hm
      · exact List.mem_cons_self _ _
      · exact List.mem_cons_of_mem _ hm
    · intro r hr
      rcases List.mem_cons.mp hr with rfl | hr'
      · exact hle
      · exact hall r hr'

/-- Modelled from the spec: the result set of the Latest-Snapshot view
(§4.3) — for each distinct document path of the changelog, the
(timestamp, sequence)-maximal row, excluded when that row is a
delete. -/
def latestSnapshot (rows : List ChangelogRow) : List ChangelogRow :=
  ((rows.map (fun r => r.documentName)).eraseDups).filterMap (fun p =>
    match pickLatest (rows.filter (fun r => r.documentName == p)) with
    | none => none
    | some m => if m.isDelete then none else some m)

/-- Membership is invariant under the accumulator loop of the core
`List.eraseDups`. -/
theorem eraseDups_loop_mem (x : String) :
    ∀ (as bs : List String),
    x ∈ List.eraseDups.loop as bs ↔ x ∈ bs ∨ x ∈ as := by
  intro as
  induction as with
  | nil =>
    intro bs
    simp [List.eraseDups.loop]
  | cons a rest ih =>
    intro bs
    cases helem : bs.elem a with
    | true =>
      have ha : a ∈ bs := (List.elem_iff).mp helem
      have hstep : List.eraseDups.loop (a :: rest) bs =
          List.eraseDups.loop rest bs := by
        rw [List.eraseDups.loop, helem]
      rw [hstep, ih]
      constructor
      · rintro (h | h)
        · exact Or.inl h
        · exact Or.inr (List.mem_cons_of_mem _ h)
      · rintro (h | h)
        · exact Or.inl h
        · rcases List.mem_cons.mp h with rfl | h'
          · exact Or.inl ha
          · exact Or.inr h'
    | false =>
      have hstep : List.eraseDups.loop (a :: rest) bs =
          List.eraseDups.loop rest (a :: bs) := by
        rw [List.eraseDups.loop, helem]
      rw [hstep, ih]
      constructor
      · rintro (h | h)
        · rcases List.mem_cons.mp h with rfl | h'
          · exact Or.inr (List.mem_cons_self _ _)
          · exact Or.inl h'
        · exact Or.inr (List.mem_cons_of_mem _ h)
      · rintro (h | h)
        · exact Or.inl (List.mem_cons_of_mem _ h)
        · rcases List.mem_cons.mp h with rfl | h'
          · exact Or.inl (List.mem_cons_self _ _)
          · exact Or.inr h'

/-- `List.eraseDups` keeps exactly the members of the list. -/
theorem mem_eraseDups (x : String) (l : List String) :
    x ∈ l.eraseDups ↔ x ∈ l := by
  rw [List.eraseDups, eraseDups_loop_mem]
  simp

/-- Claim C7: every row the Latest-Snapshot view returns is a changelog
row that is maximal in (timestamp, sequence) among its document path's
rows and is not a delete; a document path whose maximal row is a delete
contributes no row at all; and conversely (completeness) every document
path occurring in the changelog whose maximal row is a non-delete does
contribute that maximal row to the result. -/
theorem latestSnapshot_correct (rows : List ChangelogRow) :
    (∀ r ∈ latestSnapshot rows,
      r ∈ rows ∧ r.isDelete = false ∧
      ∀ r' ∈ rows, r'.documentName = r.documentName → rowLE r' r) ∧
    (∀ p m, pickLatest (rows.filter (fun r => r.documentName == p)) = some m →
      m.isDelete = true →
      ∀ r ∈ latestSnapshot rows, r.documentName ≠ p) ∧
    (∀ r0 ∈ rows, ∀ m,
      pickLatest (rows.filter (fun r => r.documentName == r0.documentName)) =
        some m →
      m.isDelete = false → m ∈ latestSnapshot rows) := by
  have hmem : ∀ r ∈ latestSnapshot rows, ∃ p,
      pickLatest (rows.filter (fun x => x.documentName == p)) = some r ∧
      r.isDelete = false := by
    intro r hr
    obtain ⟨p, _, hp⟩ := List.mem_filterMap.mp hr
    cases hpick : pickLatest (rows.filter (fun x => x.documentName == p)) with
    | none => rw [hpick] at hp; exact absurd hp (by simp)
    | some m =>
      rw [hpick] at hp
      cases hdel : m.isDelete with
      | true => simp [hdel] at hp
      | false =>
        simp [hdel] at hp
        exact ⟨p, hp ▸ hpick, hp ▸ hdel⟩
  refine ⟨?_, ?_, ?_⟩
  · intro r hr
    obtain ⟨p, hpick, hdel⟩ := hmem r hr
    obtain ⟨hin, hmax⟩ := pickLatest_spec _ r hpick
    have hrp : r.documentName = p := by
      have := List.of_mem_filter hin
      simpa using this
    refine ⟨List.mem_of_mem_filter hin, hdel, ?_⟩
    intro r' hr' hname
    apply hmax
    apply List.mem_filter.mpr
    refine ⟨hr', ?_⟩
    simp [hname, hrp]
  · intro p m hpick hdel r hr hrp
    obtain ⟨p', hpick', hdel'⟩ := hmem r hr
    obtain ⟨hin', _⟩ := pickLatest_spec _ r hpick'
    have hrp' : r.documentName = p' := by
      have := List.of_mem_filter hin'
      simpa using this
    have hpp : p = p' := by rw [← hrp, hrp']
    rw [← hpp] at hpick'
    rw [hpick] at hpick'
    have hmr : m = r := by injection hpick'
    rw [hmr, hdel'] at hdel
    exact Bool.false_ne_true hdel
  · intro r0 hr0 m hpick hdel
    apply List.mem_filterMap.mpr
    refine ⟨r0.documentName, ?_, ?_⟩
    · exact (mem_eraseDups _ _).mpr (List.mem_map.mpr ⟨r0, hr0, rfl⟩)
    · rw [hpick]
      simp [hdel]

/-- Witness for C7 at a concrete changelog: two writes and a delete on
path "a", a single write on path "b"; the view returns only the "b"
row, whose presence is also derived through the completeness part. -/
theorem latestSnapshot_correct_witness :
    latestSnapshot
      [⟨"a", 1, 1, false, "x"⟩, ⟨"a", 2, 1, true, "y"⟩, ⟨"b", 1, 1, false, "z"⟩] =
      [⟨"b", 1, 1, false, "z"⟩] ∧
    (∀ r ∈ latestSnapshot
      [⟨"a", 1, 1, false, "x"⟩, ⟨"a", 2, 1, true, "y"⟩, ⟨"b", 1, 1, false, "z"⟩],
      r.documentName ≠ "a") ∧
    (⟨"b", 1, 1, false, "z"⟩ : ChangelogRow) ∈ latestSnapshot
      [⟨"a", 1, 1, false, "x"⟩, ⟨"a", 2, 1, true, "y"⟩, ⟨"b", 1, 1, false, "z"⟩] := by
  refine ⟨rfl, ?_, ?_⟩
  · exact (latestSnapshot_correct
      [⟨"a", 1, 1, false, "x"⟩, ⟨"a", 2, 1, true, "y"⟩, ⟨"b", 1, 1, false, "z"⟩]).2.1
      "a" ⟨"a", 2, 1, true, "y"⟩ rfl rfl
  · exact (latestSnapshot_correct
      [⟨"a", 1, 1, false, "x"⟩, ⟨"a", 2, 1, true, "y"⟩, ⟨"b", 1, 1, false, "z"⟩]).2.2
      ⟨"b", 1, 1, false, "z"⟩ (by simp) ⟨"b", 1, 1, false, "z"⟩ rfl rfl

end GenSchemaView
